import Mathlib

/-!
Verification development for the DD1750 form-filler core
(`dd1750_core.py`: `extract_items_from_pdf` and `generate_dd1750_from_pdf`,
plus the `generate` route of `app.py`).

The Python code is shallowly embedded: Python strings become `List Char`,
pdfplumber word coordinates become rationals, pdfplumber table cells become
`Option (List Char)`.  The document reader is abstracted as data: a `Doc`
carries the per-page positioned words and detected tables that
`pdfplumber` would return.  Python exceptions are modelled explicitly where
the claims need them: a `PageData.broken` page is one whose reading raises
(the per-page pdfplumber calls failing on malformed content), and the
render-environment argument of the generator marks the page index, if any,
at which the canvas/merge collaborator raises.
-/

namespace DD1750

/-- Python strings are modelled as lists of characters. -/
abbrev Str := List Char

/-- Python `str.strip()`: drop whitespace from both ends. -/
def pyStrip (l : Str) : Str :=
  ((l.dropWhile Char.isWhitespace).reverse.dropWhile Char.isWhitespace).reverse

/-- Python `str.upper()` (ASCII model). -/
def upperL (l : Str) : Str := l.map Char.toUpper

/-- Boolean list-prefix test, used by the substring test below. -/
def startsW : Str → Str → Bool
  | [], _ => true
  | _ :: _, [] => false
  | a :: as, b :: bs => a = b && startsW as bs

/-- Python `pat in text` substring containment. -/
def hasSub (pat : Str) : Str → Bool
  | [] => startsW pat []
  | c :: rest => startsW pat (c :: rest) || hasSub pat rest

/-- Boolean list-suffix test. -/
def endsW (suf l : Str) : Bool := startsW suf.reverse l.reverse

/-- Python `s.split(sep)` for a one-character separator (keeps empty parts). -/
def splitOnChar (sep : Char) : Str → List Str
  | [] => [[]]
  | c :: rest =>
    let r := splitOnChar sep rest
    if c = sep then [] :: r
    else
      match r with
      | [] => [[c]]
      | h :: t => (c :: h) :: t

/-- Split on a character class, keeping empty parts (helper for whitespace
collapsing). -/
def splitPred (p : Char → Bool) : Str → List Str
  | [] => [[]]
  | c :: rest =>
    let r := splitPred p rest
    if p c then [] :: r
    else
      match r with
      | [] => [[c]]
      | h :: t => (c :: h) :: t

/-- Python `re.sub(r'\s+', ' ', s).strip()`: collapse whitespace runs to a
single space and strip the ends. -/
def collapseWs (l : Str) : Str :=
  List.intercalate ([' ']) ((splitPred Char.isWhitespace l).filter (fun s => !s.isEmpty))

/-- Value of a run of decimal digits. -/
def natFromDigits (l : Str) : Nat :=
  l.foldl (fun n c => n * 10 + (c.toNat - ('0').toNat)) 0

/-- Python `str.isdigit()` (ASCII model). -/
def pyIsdigit (l : Str) : Bool := !l.isEmpty && l.all Char.isDigit

/-- Python `int(s)`: optional sign and a nonempty digit run after stripping
whitespace; `none` models the `ValueError` path. -/
def pyInt (l : Str) : Option Int :=
  match pyStrip l with
  | '+' :: ds => if pyIsdigit ds then some (natFromDigits ds : Int) else none
  | '-' :: ds => if pyIsdigit ds then some (-(natFromDigits ds : Int)) else none
  | ds => if pyIsdigit ds then some (natFromDigits ds : Int) else none

/-- Regex word character `[A-Za-z0-9_]`. -/
def isWordChar (c : Char) : Bool := c.isAlphanum || c = '_'

/-- Python `re.match(r'^\d{9}$', s)`: the whole string is exactly nine
digits. -/
def nineDigits (l : Str) : Bool := l.length = 9 && l.all Char.isDigit

/-- Python `re.match(r'^C_[A-Z0-9]+$', s)`. -/
def isCUnd : Str → Bool
  | 'C' :: '_' :: rest => !rest.isEmpty && rest.all (fun c => c.isUpper || c.isDigit)
  | _ => false

/-- First match of `re.search(r'\b(\d{9})\b', s)`: nine digits starting
here, with a non-word character (or the end) right after. -/
def nineHere (l : Str) : Bool :=
  (l.take 9).length = 9 && (l.take 9).all Char.isDigit &&
    (match l.drop 9 with
     | [] => true
     | c :: _ => !isWordChar c)

/-- Scan for the leftmost boundary-delimited nine-digit run; the flag says
whether the previous character was a word character (so no `\b` here). -/
def findNineGo (prevWord : Bool) : Str → Option Str
  | [] => none
  | c :: rest =>
    if !prevWord && nineHere (c :: rest) then some ((c :: rest).take 9)
    else findNineGo (isWordChar c) rest

/-- Python `re.search(r'\b(\d{9})\b', s)`, returning the captured run. -/
def findNine (l : Str) : Option Str := findNineGo false l

/-- The trailing classification codes stripped from primary-path
descriptions (`dd1750_core.py` line 122). -/
def codeTokens : List Str :=
  [("WTY").toList, ("ARC").toList, ("CIIC").toList, ("UI").toList,
   ("SCMC").toList, ("EA").toList, ("AY").toList, ("9K").toList, ("9G").toList]

/-- Does `re.sub(r'\b(TOK)\b$', '', s, flags=IGNORECASE)` match token `t` at
the end of `l`: `l` ends with `t` (case-insensitively) and the character
before the token, if any, is not a word character. -/
def matchesTrailing (t : Str) (l : Str) : Bool :=
  endsW t (upperL l) &&
    (l.length = t.length ||
      (match (l.take (l.length - t.length)).getLast? with
       | some c => !isWordChar c
       | none => true))

/-- The trailing-code removal of `dd1750_core.py` line 122.  The token
alternatives are mutually exclusive as suffixes, so picking the first
matching token is the regex behaviour. -/
def stripTrailingCode (l : Str) : Str :=
  match codeTokens.find? (fun t => matchesTrailing t l) with
  | some t => l.take (l.length - t.length)
  | none => l

/-- The stop-word list of `dd1750_core.py` line 98 (exact matches). -/
def stopWords : List Str :=
  [("WTY").toList, ("ARC").toList, ("CIIC").toList, ("UI").toList,
   ("SCMC").toList, ("EA").toList, ("AY").toList, ("9K").toList, ("9G").toList]

/-- Rational addition, written out over `mkRat` so that concrete runs of
the model reduce inside the kernel (the library's rational arithmetic is
sealed against unfolding); the value agrees with ordinary addition. -/
def qAdd (a b : ℚ) : ℚ := mkRat (a.num * (b.den : Int) + b.num * (a.den : Int)) (a.den * b.den)

/-- Rational subtraction over `mkRat` (see `qAdd`). -/
def qSub (a b : ℚ) : ℚ := mkRat (a.num * (b.den : Int) - b.num * (a.den : Int)) (a.den * b.den)

/-- Rational multiplication over `mkRat` (see `qAdd`). -/
def qMul (a b : ℚ) : ℚ := mkRat (a.num * b.num) (a.den * b.den)

/-- Rational negation over `mkRat` (see `qAdd`). -/
def qNeg (a : ℚ) : ℚ := mkRat (-a.num) a.den

/-- Halving over `mkRat` (see `qAdd`). -/
def qHalf (a : ℚ) : ℚ := mkRat a.num (a.den * 2)

/-- Python banker's rounding (`round`) on an exact rational. -/
def pyRound (q : ℚ) : Int :=
  let f : Int := Rat.floor q
  let r : ℚ := qSub q ((f : Int) : ℚ)
  if r < mkRat 1 2 then f
  else if mkRat 1 2 < r then f + 1
  else if f % 2 = 0 then f else f + 1

/-- `round(t * 2) / 2` of `dd1750_core.py` line 59. -/
def roundHalf (t : ℚ) : ℚ := qHalf ((pyRound (qMul t 2) : Int) : ℚ)

/-- Absolute value of a rational (Python `abs`). -/
def ratAbs (q : ℚ) : ℚ := if q < 0 then qNeg q else q

/-- A positioned word as returned by `pdfplumber.Page.extract_words()`. -/
structure Word where
  text : Str
  x0 : ℚ
  x1 : ℚ
  top : ℚ
deriving DecidableEq

/-- A pdfplumber table cell: a string or `None`. -/
abbrev Cell := Option Str

/-- A pdfplumber table: a grid of cells (first row is the header). -/
abbrev Table := List (List Cell)

/-- One source page: either its words and tables as pdfplumber returns
them, or `broken`, modelling a page whose reading raises (malformed
content makes the per-page pdfplumber calls throw, and the only handler is
the whole-extraction `except` of `dd1750_core.py` lines 238-240). -/
inductive PageData where
  | ok (words : List Word) (tables : List Table)
  | broken
deriving DecidableEq

/-- A source document: whether `pdfplumber.open` succeeds, and its pages. -/
structure Doc where
  canOpen : Bool
  pages : List PageData

/-- The extracted record (`BomItem` dataclass of `dd1750_core.py`). -/
structure BomItem where
  line_no : Nat
  description : Str
  nsn : Str
  qty : Int
deriving DecidableEq

/-- Insertion-ordered grouping of words by rounded y (the Python dict
`y_groups` of lines 57-62; dict iteration preserves insertion order). -/
def addToGroups : List (ℚ × List Word) → ℚ → Word → List (ℚ × List Word)
  | [], y, w => [(y, [w])]
  | (k, ws) :: rest, y, w =>
    if k = y then (k, ws ++ [w]) :: rest else (k, ws) :: addToGroups rest y w

/-- `y_groups` built from the page's words. -/
def yGroups (words : List Word) : List (ℚ × List Word) :=
  words.foldl (fun gs w => addToGroups gs (roundHalf w.top) w) []

/-- Look up one y-group (dict access `y_groups[y]`). -/
def groupAt (gs : List (ℚ × List Word)) (y : ℚ) : List Word :=
  match gs.find? (fun p => p.1 = y) with
  | some p => p.2
  | none => []

/-- `sorted(y_groups.keys())`. -/
def sortedKeys (gs : List (ℚ × List Word)) : List ℚ :=
  List.insertionSort (fun a b => a ≤ b) (gs.map (fun p => p.1))

/-- A located level-indicator mark (the `b_positions` entries of lines
68-77). -/
structure BPos where
  y : ℚ
  x : ℚ
  width : ℚ
deriving DecidableEq

/-- Collect the `B` words in reading order (lines 68-77). -/
def bPositions (sy : List ℚ) (gs : List (ℚ × List Word)) : List BPos :=
  sy.foldl
    (fun acc y =>
      acc ++ ((groupAt gs y).filter (fun w => upperL w.text = ('B') :: [])).map
        (fun w => BPos.mk y w.x0 (qSub w.x1 w.x0)))
    []

/-- The same-line word filter of lines 89-101. -/
def keepWord (w : Word) : Bool :=
  !(upperL w.text = ('B') :: []) && !nineDigits w.text && !isCUnd w.text &&
    !stopWords.contains w.text

/-- The description words for one `B`: same-line survivors sorted by x and
restricted to those right of the `B` (lines 103-111). -/
def primaryParts (gs : List (ℚ × List Word)) (b : BPos) : List Str :=
  (((List.insertionSort (fun a b : Word => a.x0 ≤ b.x0)
      ((groupAt gs b.y).filter keepWord)).filter
    (fun w => qAdd b.x b.width < w.x0)).map (fun w => w.text))

/-- The cleaned primary-path description (lines 114-123): join with
spaces, cut at the first parenthesis, strip one trailing classification
code, collapse whitespace. -/
def primaryDesc (gs : List (ℚ × List Word)) (b : BPos) : Str :=
  let d0 := List.intercalate ([' ']) (primaryParts gs b)
  let d1 := if d0.contains '(' then pyStrip ((splitOnChar '(' d0).headD []) else d0
  collapseWs (stripTrailingCode d1)

/-- NSN search near a `B` (lines 126-135): first nine-digit word in the
first qualifying y-group (within 3 units) that has one. -/
def findNsnNear (gs : List (ℚ × List Word)) (by' : ℚ) : List ℚ → Str
  | [] => []
  | y :: rest =>
    if ratAbs (qSub y by') ≤ 3 then
      match (groupAt gs y).find? (fun w => nineDigits w.text) with
      | some w => w.text
      | none => findNsnNear gs by' rest
    else findNsnNear gs by' rest

/-- The quantity-word test of line 142: a digit run whose value lies in
`[1, 100]`. -/
def qtyWord (w : Word) : Bool :=
  pyIsdigit w.text && 1 ≤ natFromDigits w.text && natFromDigits w.text ≤ 100

/-- Quantity search near a `B` (lines 138-146), with the loop's running
`qty` value and its break-on-nonunit behaviour made explicit. -/
def findQtyGo (gs : List (ℚ × List Word)) (by' : ℚ) (q : Nat) : List ℚ → Nat
  | [] => q
  | y :: rest =>
    if ratAbs (qSub y by') ≤ mkRat 3 2 then
      let q' :=
        match (groupAt gs y).find? qtyWord with
        | some w => natFromDigits w.text
        | none => q
      if q' ≠ 1 then q' else findQtyGo gs by' q' rest
    else if q ≠ 1 then q else findQtyGo gs by' q rest

/-- Quantity for one `B` (default 1). -/
def findQtyNear (gs : List (ℚ × List Word)) (by' : ℚ) (sy : List ℚ) : Nat :=
  findQtyGo gs by' 1 sy

/-- Process one located `B` (lines 82-155): emit a record when the cleaned
description has more than two characters. -/
def processB (gs : List (ℚ × List Word)) (sy : List ℚ) (items : List BomItem)
    (b : BPos) : List BomItem :=
  if (primaryParts gs b).isEmpty then items
  else
    let d := primaryDesc gs b
    let nsn := findNsnNear gs b.y sy
    let q := findQtyNear gs b.y sy
    if !d.isEmpty && 2 < d.length then
      items ++ [BomItem.mk (items.length + 1) (d.take 100) nsn (q : Int)]
    else items

/-- The whole position-based (primary) pass over one page's words. -/
def primaryOnPage (words : List Word) (items : List BomItem) : List BomItem :=
  let gs := yGroups words
  let sy := sortedKeys gs
  (bPositions sy gs).foldl (processB gs sy) items

/-- The resolved column-role map (`col_indices` of lines 169-181). -/
structure ColIndices where
  lv : Option Nat
  desc : Option Nat
  material : Option Nat
  qty : Option Nat
deriving DecidableEq

/-- Python truthiness of a cell (`if cell:`). -/
def truthy : Cell → Bool
  | none => false
  | some s => !s.isEmpty

/-- The string of a cell (`str(cell)`), used only behind `truthy`. -/
def cellStr : Cell → Str
  | none => []
  | some s => s

/-- The level-indicator keyword test of line 174. -/
def kwLvIn (t : Str) : Bool :=
  hasSub (("LV").toList) t || hasSub (("LEVEL").toList) t

/-- The description keyword test of line 176. -/
def kwDescIn (t : Str) : Bool := hasSub (("DESCRIPTION").toList) t

/-- The material keyword test of line 178. -/
def kwMatIn (t : Str) : Bool := hasSub (("MATERIAL").toList) t

/-- The quantity keyword test of line 180. -/
def kwQtyIn (t : Str) : Bool :=
  hasSub (("QTY").toList) t || hasSub (("QUANTITY").toList) t

/-- One step of the header scan of lines 171-181: the `if`/`elif` keyword
chain, assigning (and overwriting) the role index. -/
def classifyCell (ci : ColIndices) (idx : Nat) (c : Cell) : ColIndices :=
  match c with
  | none => ci
  | some s =>
    if s.isEmpty then ci
    else
      let t := upperL (pyStrip s)
      if kwLvIn t then { ci with lv := some idx }
      else if kwDescIn t then { ci with desc := some idx }
      else if kwMatIn t then { ci with material := some idx }
      else if kwQtyIn t then { ci with qty := some idx }
      else ci

/-- The header scan, carrying the running cell index. -/
def findColsFrom (idx : Nat) (ci : ColIndices) : List Cell → ColIndices
  | [] => ci
  | c :: rest => findColsFrom (idx + 1) (classifyCell ci idx c) rest

/-- Column-role resolution for one table header (lines 168-181). -/
def findCols (header : List Cell) : ColIndices :=
  findColsFrom 0 (ColIndices.mk none none none none) header

/-- The table-path description of lines 188-207: second line of a
multi-line cell (else the whole cell), cut at the first colon and the
first parenthesis, whitespace collapsed. -/
def tableDesc (ci : ColIndices) (row : List Cell) : Str :=
  match ci.desc with
  | none => []
  | some di =>
    if di < row.length then
      let c := row.getD di none
      if truthy c then
        let s0 := pyStrip (cellStr c)
        let ls := splitOnChar '\n' s0
        let d0 := if 2 ≤ ls.length then pyStrip (ls.getD 1 []) else s0
        let d1 := if d0.contains ':' then pyStrip ((splitOnChar ':' d0).headD []) else d0
        let d2 := if d1.contains '(' then pyStrip ((splitOnChar '(' d1).headD []) else d1
        collapseWs d2
      else []
    else []

/-- The table-path NSN of lines 209-217. -/
def tableNsn (ci : ColIndices) (row : List Cell) : Str :=
  match ci.material with
  | none => []
  | some mi =>
    if mi < row.length then
      let c := row.getD mi none
      if truthy c then
        match findNine (pyStrip (cellStr c)) with
        | some n => n
        | none => []
      else []
    else []

/-- The table-path quantity of lines 219-227: `int(...)` with the bare
`except` defaulting to 1. -/
def tableQty (ci : ColIndices) (row : List Cell) : Int :=
  match ci.qty with
  | none => 1
  | some qi =>
    if qi < row.length then
      let c := row.getD qi none
      if truthy c then
        match pyInt (cellStr c) with
        | some v => v
        | none => 1
      else 1
    else 1

/-- Process one table body row (lines 184-236): rows qualify when the
level-indicator cell is exactly `B` after stripping and upper-casing, and
a record is emitted only for a nonempty cleaned description. -/
def processTableRow (ci : ColIndices) (items : List BomItem) (row : List Cell) :
    List BomItem :=
  match ci.lv with
  | none => items
  | some li =>
    if li < row.length then
      let lvc := row.getD li none
      if truthy lvc && upperL (pyStrip (cellStr lvc)) = ('B') :: [] then
        let d := tableDesc ci row
        if !d.isEmpty then
          items ++ [BomItem.mk (items.length + 1) (d.take 100) (tableNsn ci row) (tableQty ci row)]
        else items
      else items
    else items

/-- Process one detected table (lines 163-236): tables with fewer than two
rows are skipped; otherwise the header is resolved and every body row is
processed. -/
def processOneTable (items : List BomItem) (t : Table) : List BomItem :=
  if t.length < 2 then items
  else
    match t with
    | [] => items
    | header :: rows => rows.foldl (processTableRow (findCols header)) items

/-- The table-extraction fallback over one page's tables. -/
def processTables (tables : List Table) (items : List BomItem) : List BomItem :=
  tables.foldl processOneTable items

/-- One page of the extraction loop (lines 47-236): pages with no words
are skipped entirely; the primary pass always runs; the table fallback
runs only while fewer than five records have accumulated; a broken page
raises. -/
def processPageD (items : List BomItem) : PageData → Except Unit (List BomItem)
  | PageData.broken => Except.error ()
  | PageData.ok words tables =>
    if words.isEmpty then Except.ok items
    else
      let items1 := primaryOnPage words items
      Except.ok (if items1.length < 5 then processTables tables items1 else items1)

/-- The page loop; an exception on any page aborts the whole loop. -/
def goPages : List PageData → List BomItem → Except Unit (List BomItem)
  | [], items => Except.ok items
  | p :: rest, items =>
    match processPageD items p with
    | Except.ok its => goPages rest its
    | Except.error e => Except.error e

/-- `extract_items_from_pdf` (lines 41-243): the whole loop sits in one
`try`; any exception, including a failing `pdfplumber.open`, reaches the
single handler, which returns the empty list. -/
def extract_items_from_pdf (doc : Doc) (start_page : Nat) : List BomItem :=
  if doc.canOpen then
    match goPages (doc.pages.drop start_page) [] with
    | Except.ok items => items
    | Except.error _ => []
  else []

/-- Rows per output page (`ROWS_PER_PAGE`, line 16). -/
def ROWS_PER_PAGE : Nat := 18

/-- `math.ceil(n / ROWS_PER_PAGE)` for a natural `n` (line 266). -/
def totalPagesFor (n : Nat) : Nat := (n + ROWS_PER_PAGE - 1) / ROWS_PER_PAGE

/-- The record slice for page `p` (lines 275-277): indices
`[p*18, min((p+1)*18, len))`. -/
def pageSlice (items : List BomItem) (p : Nat) : List BomItem :=
  (items.drop (p * ROWS_PER_PAGE)).take ROWS_PER_PAGE

/-- The text drawn for one record row (lines 292-313).  The canvas
collaborator is modelled by recording the strings handed to it per field;
coordinates are fixed geometry and are not part of any claim here. -/
structure DrawnRow where
  boxNo : Str
  descDrawn : Str
  nsnLine : Option Str
  uoi : Str
  qtyInit : Str
  spares : Str
  qtyTotal : Str
deriving DecidableEq

/-- Render one record into its drawn strings; the description is truncated
to its first 47 characters plus an ellipsis when longer than 50 (lines
296-300). -/
def drawRow (it : BomItem) : DrawnRow :=
  { boxNo := (toString it.line_no).toList
    descDrawn :=
      if 50 < it.description.length then
        it.description.take 47 ++ ('.') :: ('.') :: ('.') :: []
      else it.description
    nsnLine :=
      if !it.nsn.isEmpty then some ((("NSN: ").toList) ++ it.nsn) else none
    uoi := ("EA").toList
    qtyInit := (toString it.qty).toList
    spares := ("0").toList
    qtyTotal := (toString it.qty).toList }

/-- One merged output page, modelled as its overlay rows (the code always
merges the overlay onto page 0 of the template, so the bare template page
is the page with no overlay rows). -/
abbrev OutPage := List DrawnRow

/-- The body of the per-page rendering loop of lines 271-322, over the
remaining page indices.  `rf` is the render-environment model: the page
index, if any, at which the canvas/merge collaborator raises. -/
def renderPagesGo (items : List BomItem) (rf : Option Nat) :
    List Nat → Except Unit (List OutPage)
  | [] => Except.ok []
  | p :: rest =>
    if rf = some p then Except.error ()
    else
      match renderPagesGo items rf rest with
      | Except.ok r => Except.ok ((pageSlice items p).map drawRow :: r)
      | Except.error e => Except.error e

/-- The rendering loop `for page_num in range(total_pages)`. -/
def renderAll (items : List BomItem) (rf : Option Nat) (total : Nat) :
    Except Unit (List OutPage) :=
  renderPagesGo items rf (List.range' 0 total)

/-- `generate_dd1750_from_pdf` (lines 246-338): extract, special-case the
empty list to the bare template, otherwise render `ceil(N/18)` pages; the
catch-all `except` of lines 330-338 writes the bare template page and
returns a count of 0. -/
def generate_dd1750_from_pdf (bom : Doc) (start_page : Nat) (rf : Option Nat) :
    List OutPage × Nat :=
  let items := extract_items_from_pdf bom start_page
  if items.isEmpty then ([[]], 0)
  else
    match renderAll items rf (totalPagesFor items.length) with
    | Except.ok pages => (pages, items.length)
    | Except.error _ => ([[]], 0)

/-- Month abbreviations for the military date format. -/
def monthAbbrev (m : Nat) : Str :=
  (([("JAN").toList, ("FEB").toList, ("MAR").toList, ("APR").toList,
     ("MAY").toList, ("JUN").toList, ("JUL").toList, ("AUG").toList,
     ("SEP").toList, ("OCT").toList, ("NOV").toList, ("DEC").toList]).getD
    (m - 1) [])

/-- Two-digit zero-padded rendering of a day number. -/
def pad2 (n : Nat) : Str :=
  if n < 10 then ('0') :: (toString n).toList else (toString n).toList

/-- Modelled from the spec: the repository revision of
`generate_dd1750_from_pdf` that takes an `admin_fields` map is absent from
`src/` (its caller `app.py` passes `admin_data` as a fifth argument, but
the core in `src/dd1750_core.py` has no such parameter and no date code).
Per the spec, the date value is parsed from one of several common formats;
modelled here: ISO `YYYY-MM-DD` and `MM/DD/YYYY`, with months 1-12 and
days 1-31. -/
def parseDateAny (s : Str) : Option (Nat × Nat × Nat) :=
  match s with
  | y1 :: y2 :: y3 :: y4 :: '-' :: m1 :: m2 :: '-' :: d1 :: d2 :: [] =>
    if ([y1, y2, y3, y4, m1, m2, d1, d2]).all Char.isDigit then
      let y := natFromDigits [y1, y2, y3, y4]
      let m := natFromDigits [m1, m2]
      let d := natFromDigits [d1, d2]
      if 1 ≤ m && m ≤ 12 && 1 ≤ d && d ≤ 31 then some (y, m, d) else none
    else none
  | m1 :: m2 :: '/' :: d1 :: d2 :: '/' :: y1 :: y2 :: y3 :: y4 :: [] =>
    if ([y1, y2, y3, y4, m1, m2, d1, d2]).all Char.isDigit then
      let y := natFromDigits [y1, y2, y3, y4]
      let m := natFromDigits [m1, m2]
      let d := natFromDigits [d1, d2]
      if 1 ≤ m && m ≤ 12 && 1 ≤ d && d ≤ 31 then some (y, m, d) else none
    else none
  | _ => none

/-- Modelled from the spec: reformat a recognized date into the two-digit
day, upper-cased three-letter month, four-digit year military format; an
unrecognized string passes through unchanged. -/
def formatMilitaryDate (s : Str) : Str :=
  match parseDateAny s with
  | some (y, m, d) => pad2 d ++ monthAbbrev m ++ (toString y).toList
  | none => s

/-- The admin fields accepted by the entry point (spec section 6; built by
`app.py` from the request form). -/
structure AdminFields where
  unit : Str
  packed_by : Str
  num_boxes : Str
  requisition_no : Str
  order_no : Str
  date : Str

/-- Modelled from the spec: the admin-capable generator revision — it
behaves as `generate_dd1750_from_pdf` and additionally renders the admin
fields, the date reformatted through `formatMilitaryDate`. -/
def generateWithAdmin (bom : Doc) (start_page : Nat) (rf : Option Nat)
    (admin : AdminFields) : (List OutPage × Nat) × Str :=
  (generate_dd1750_from_pdf bom start_page rf, formatMilitaryDate admin.date)

/-- The upper-cased stripped text of a header cell (line 173). -/
def cellTextU (c : Cell) : Str := upperL (pyStrip (cellStr c))

/-- A header cell that the chain of lines 171-181 classifies into the
level-indicator role. -/
def isLvCell (c : Cell) : Bool := truthy c && kwLvIn (cellTextU c)

/-- A header cell that the chain classifies into the description role
(the `elif` excludes cells already matching the level keywords). -/
def isDescCell (c : Cell) : Bool :=
  truthy c && !kwLvIn (cellTextU c) && kwDescIn (cellTextU c)

/-- A header cell that the chain classifies into the material role. -/
def isMatCell (c : Cell) : Bool :=
  truthy c && !kwLvIn (cellTextU c) && !kwDescIn (cellTextU c) &&
    kwMatIn (cellTextU c)

/-- A header cell that the chain classifies into the quantity role. -/
def isQtyCell (c : Cell) : Bool :=
  truthy c && !kwLvIn (cellTextU c) && !kwDescIn (cellTextU c) &&
    !kwMatIn (cellTextU c) && kwQtyIn (cellTextU c)

/-- Index of the last matching cell, counting from offset `i`. -/
def lastIdxFrom (p : Cell → Bool) (i : Nat) : List Cell → Option Nat
  | [] => none
  | c :: rest =>
    match lastIdxFrom p (i + 1) rest with
    | some j => some j
    | none => if p c then some i else none

/-- Index of the last cell satisfying `p` (used to characterise the
overwrite behaviour of the header scan). -/
def lastIdxWhere (p : Cell → Bool) (l : List Cell) : Option Nat :=
  lastIdxFrom p 0 l

/-- Index of the first matching cell, counting from offset `i`. -/
def firstIdxFrom (p : Cell → Bool) (i : Nat) : List Cell → Option Nat
  | [] => none
  | c :: rest => if p c then some i else firstIdxFrom p (i + 1) rest

/-- Modelled from the spec's words, for comparison with `findCols`:
"First cell that classifies into a role wins that role (no override)" —
the first (leftmost) cell satisfying `p`. -/
def firstIdxWhere (p : Cell → Bool) (l : List Cell) : Option Nat :=
  firstIdxFrom p 0 l

/-- First-operand-biased choice on optional indices. -/
def orElseO (o d : Option Nat) : Option Nat :=
  match o with
  | some j => some j
  | none => d

/-- The quantity cell of a row is missing, unresolved, empty, or fails
Python `int` parsing (the conditions under which lines 219-227 leave the
default quantity). -/
def qtyCellUnusable (ci : ColIndices) (row : List Cell) : Bool :=
  match ci.qty with
  | none => true
  | some qi =>
    !(decide (qi < row.length)) || !truthy (row.getD qi none) ||
      (pyInt (cellStr (row.getD qi none))).isNone

/-- The record-list invariant maintained by both emission sites: line
numbers are exactly `1, 2, ..., n` and every description is nonempty and
at most 100 characters. -/
def GoodList (l : List BomItem) : Prop :=
  l.map BomItem.line_no = List.range' 1 l.length ∧
    ∀ it ∈ l, it.description ≠ [] ∧ it.description.length ≤ 100

/-- Concrete test word: a level-indicator mark on the first line. -/
def wB1 : Word := Word.mk (("B").toList) 10 15 100

/-- Concrete test word: a description word right of `wB1`. -/
def wA1 : Word := Word.mk (("ALPHA").toList) 20 40 100

/-- Concrete test word: a level-indicator mark on the second line. -/
def wB2 : Word := Word.mk (("B").toList) 10 15 110

/-- Concrete test word: a description word right of `wB2`. -/
def wA2 : Word := Word.mk (("BRAVO").toList) 20 40 110

/-- Concrete test word: a single non-indicator word (makes a page
non-empty without feeding the position-based pass). -/
def wX : Word := Word.mk (("X").toList) 0 1 0

/-- Concrete table header resolving all four roles. -/
def hdr4 : List Cell :=
  [some (("LV").toList), some (("DESCRIPTION").toList),
   some (("MATERIAL").toList), some (("QTY").toList)]

/-- Concrete qualifying table row with quantity cell `2`. -/
def rowC : List Cell :=
  [some (("B").toList), some (("CHARLIE").toList), none, some (("2").toList)]

/-- Concrete qualifying table row whose quantity cell parses to `0`. -/
def rowZ : List Cell :=
  [some (("B").toList), some (("WIDGET").toList),
   some (("123456789").toList), some (("0").toList)]

/-- Concrete short qualifying table row (no material or quantity cell). -/
def rowW : List Cell := [some (("B").toList), some (("WIDGET").toList)]

/-- The word list of the two-indicator test page. -/
def words4 : List Word := [wB1, wA1, wB2, wA2]

/-- The single table of the two-indicator test page. -/
def table4 : Table := [hdr4, rowC]

/-- A page on which the position-based pass yields two records and the
table fallback yields a third. -/
def page4 : PageData := PageData.ok words4 [table4]

/-- Document wrapping `page4`. -/
def doc4 : Doc := Doc.mk true [page4]

/-- Document whose only table row carries a parsable quantity cell `0`. -/
def doc3 : Doc := Doc.mk true [PageData.ok [wX] [[hdr4, rowZ]]]

/-- Document with forty qualifying table rows. -/
def doc40 : Doc := Doc.mk true [PageData.ok [wX] [hdr4 :: List.replicate 40 rowW]]

/-- A page yielding exactly one record through the position-based pass. -/
def pageGood : PageData := PageData.ok [wB1, wA1] []

/-- Document wrapping `pageGood`. -/
def docGood : Doc := Doc.mk true [pageGood]

/-- Document with a good page followed by a page whose reading raises. -/
def docGB : Doc := Doc.mk true [pageGood, PageData.broken]

/-- Header with two cells matching the level-indicator keywords. -/
def header9 : List Cell :=
  [some (("LV").toList), some (("DESCRIPTION").toList), some (("LEVEL").toList)]

/-- Five arbitrary pre-accumulated records (input state for the fallback
gate). -/
def items5 : List BomItem := List.replicate 5 (BomItem.mk 0 [] [] 1)

/-- The record `doc4`'s primary pass emits first. -/
def itemALPHA : BomItem := BomItem.mk 1 (("ALPHA").toList) [] 1

/-- The record `doc4`'s primary pass emits second. -/
def itemBRAVO : BomItem := BomItem.mk 2 (("BRAVO").toList) [] 1

/-- The record `doc4`'s table fallback emits. -/
def itemCHARLIE : BomItem := BomItem.mk 3 (("CHARLIE").toList) [] 2

/-- A record with a 60-character stored description. -/
def itemLong : BomItem := BomItem.mk 1 (List.replicate 60 ('A')) [] 1

lemma goodList_nil : GoodList [] := by
  constructor
  · simp
  · intro it h
    simp at h

lemma goodList_append {l : List BomItem} (h : GoodList l) {d : Str}
    (hd : d ≠ []) (hlen : d.length ≤ 100) (nsn : Str) (q : Int) :
    GoodList (l ++ [BomItem.mk (l.length + 1) d nsn q]) := by
  obtain ⟨h1, h2⟩ := h
  constructor
  · simp only [List.map_append, List.length_append, h1, List.map_cons, List.map_nil,
      List.length_cons, List.length_nil]
    have hc : List.range' 1 (l.length + 1) = List.range' 1 l.length ++ [1 + 1 * l.length] :=
      List.range'_concat 1 l.length
    simp only [one_mul] at hc
    rw [Nat.add_comm 1 l.length] at hc
    rw [hc]
  · intro it hit
    rcases List.mem_append.mp hit with hmem | hmem
    · exact h2 it hmem
    · simp only [List.mem_singleton] at hmem
      subst hmem
      exact ⟨hd, hlen⟩

lemma isEmpty_false_ne {l : Str} (h : l.isEmpty = false) : l ≠ [] := by
  cases l with
  | nil => simp at h
  | cons c rest => simp

lemma take100_good {d : Str} (h : d ≠ []) :
    d.take 100 ≠ [] ∧ (d.take 100).length ≤ 100 := by
  constructor
  · have : 0 < (d.take 100).length := by
      rw [List.length_take]
      have : 0 < d.length := List.length_pos.mpr h
      omega
    exact List.length_pos.mp this
  · rw [List.length_take]
    omega

lemma processB_good {gs : List (ℚ × List Word)} {sy : List ℚ}
    {items : List BomItem} (h : GoodList items) (b : BPos) :
    GoodList (processB gs sy items b) := by
  unfold processB
  by_cases h1 : (primaryParts gs b).isEmpty
  · simp only [h1, if_true]
    exact h
  · simp only [h1, Bool.false_eq_true, if_false]
    by_cases h2 : (!(primaryDesc gs b).isEmpty && decide (2 < (primaryDesc gs b).length)) = true
    · simp only [h2, if_true]
      have hne : primaryDesc gs b ≠ [] := by
        simp only [Bool.and_eq_true, Bool.not_eq_true'] at h2
        exact isEmpty_false_ne h2.1
      obtain ⟨hn, hl⟩ := take100_good hne
      exact goodList_append h hn hl _ _
    · simp only [h2, Bool.false_eq_true, if_false]
      exact h

lemma processTableRow_good {ci : ColIndices} {items : List BomItem}
    (h : GoodList items) (row : List Cell) :
    GoodList (processTableRow ci items row) := by
  unfold processTableRow
  cases hlv : ci.lv with
  | none => exact h
  | some li =>
    by_cases h1 : li < row.length
    · simp only [h1, if_true]
      by_cases h2 : (truthy (row.getD li none) &&
          decide (upperL (pyStrip (cellStr (row.getD li none))) = ('B') :: [])) = true
      · simp only [h2, if_true]
        by_cases h3 : (!(tableDesc ci row).isEmpty) = true
        · simp only [h3, if_true]
          have hne : tableDesc ci row ≠ [] := by
            simp only [Bool.not_eq_true'] at h3
            exact isEmpty_false_ne h3
          obtain ⟨hn, hl⟩ := take100_good hne
          exact goodList_append h hn hl _ _
        · simp only [h3, Bool.false_eq_true, if_false]
          exact h
      · simp only [h2, Bool.false_eq_true, if_false]
        exact h
    · simp only [h1, if_false]
      exact h

lemma foldl_preserves {α β : Type} (P : α → Prop) (f : α → β → α)
    (hf : ∀ a b, P a → P (f a b)) :
    ∀ (l : List β) (a : α), P a → P (List.foldl f a l) := by
  intro l
  induction l with
  | nil => intro a ha; simpa using ha
  | cons b rest ih =>
    intro a ha
    simp only [List.foldl_cons]
    exact ih (f a b) (hf a b ha)

lemma primaryOnPage_good {words : List Word} {items : List BomItem}
    (h : GoodList items) : GoodList (primaryOnPage words items) := by
  unfold primaryOnPage
  exact foldl_preserves GoodList _ (fun a b ha => processB_good ha b) _ _ h

lemma processOneTable_good {items : List BomItem} (h : GoodList items)
    (t : Table) : GoodList (processOneTable items t) := by
  unfold processOneTable
  split
  · exact h
  · split
    · exact h
    · exact foldl_preserves GoodList _
        (fun a b ha => processTableRow_good ha b) _ _ h

lemma processTables_good {tables : List Table} {items : List BomItem}
    (h : GoodList items) : GoodList (processTables tables items) := by
  unfold processTables
  exact foldl_preserves GoodList _
    (fun a b ha => processOneTable_good ha b) _ _ h

lemma processPageD_good {items res : List BomItem} {pd : PageData}
    (h : GoodList items) (hp : processPageD items pd = Except.ok res) :
    GoodList res := by
  cases pd with
  | broken => simp [processPageD] at hp
  | ok words tables =>
    have heq : processPageD items (PageData.ok words tables) =
        if words.isEmpty then Except.ok items
        else Except.ok (if (primaryOnPage words items).length < 5 then
          processTables tables (primaryOnPage words items)
        else primaryOnPage words items) := rfl
    rw [heq] at hp
    by_cases hw : words.isEmpty
    · rw [if_pos hw] at hp
      cases hp
      exact h
    · rw [if_neg hw] at hp
      cases hp
      by_cases h5 : (primaryOnPage words items).length < 5
      · rw [if_pos h5]
        exact processTables_good (primaryOnPage_good h)
      · rw [if_neg h5]
        exact primaryOnPage_good h

lemma goPages_good : ∀ (pages : List PageData) (items res : List BomItem),
    GoodList items → goPages pages items = Except.ok res → GoodList res := by
  intro pages
  induction pages with
  | nil =>
    intro items res h hp
    simp only [goPages] at hp
    cases hp
    exact h
  | cons p rest ih =>
    intro items res h hp
    simp only [goPages] at hp
    cases hq : processPageD items p with
    | error e => rw [hq] at hp; cases hp
    | ok its =>
      rw [hq] at hp
      exact ih its res (processPageD_good h hq) hp

lemma extract_good (doc : Doc) (sp : Nat) :
    GoodList (extract_items_from_pdf doc sp) := by
  unfold extract_items_from_pdf
  split
  · cases hg : goPages (doc.pages.drop sp) [] with
    | ok items => exact goPages_good _ [] items goodList_nil hg
    | error e => exact goodList_nil
  · exact goodList_nil

/-- C1: the records returned by `extract_items_from_pdf` carry line
numbers `1, 2, ..., n` — strictly increasing, gap-free, starting at 1,
global across all pages and tables, assigned at emission time from the
running list length (never read from the source). -/
theorem c1_line_numbers (doc : Doc) (sp : Nat) :
    (extract_items_from_pdf doc sp).map BomItem.line_no =
      List.range' 1 (extract_items_from_pdf doc sp).length :=
  (extract_good doc sp).1

/-- C2: no emitted record has an empty description and every emitted
description has at most 100 characters; a row or indicator line whose
description is empty after cleaning is skipped silently, leaving the
record list unchanged. -/
theorem c2_descriptions (doc : Doc) (sp : Nat) :
    (∀ it ∈ extract_items_from_pdf doc sp,
        it.description ≠ [] ∧ it.description.length ≤ 100)
    ∧ (∀ (ci : ColIndices) (items : List BomItem) (row : List Cell),
        tableDesc ci row = [] → processTableRow ci items row = items)
    ∧ (∀ (gs : List (ℚ × List Word)) (sy : List ℚ) (items : List BomItem)
        (b : BPos), primaryDesc gs b = [] → processB gs sy items b = items) := by
  refine ⟨(extract_good doc sp).2, ?_, ?_⟩
  · intro ci items row hd
    unfold processTableRow
    cases hlv : ci.lv with
    | none => rfl
    | some li =>
      by_cases h1 : li < row.length
      · simp only [h1, if_true, hd]
        simp
      · simp only [h1, if_false]
  · intro gs sy items b hd
    unfold processB
    by_cases h1 : (primaryParts gs b).isEmpty
    · simp only [h1, if_true]
    · simp only [h1, Bool.false_eq_true, if_false, hd]
      simp

/-- Witness for C2 at a concrete document and a concrete
empty-after-cleaning row. -/
theorem c2_witness :
    itemALPHA.description ≠ [] ∧ itemALPHA.description.length ≤ 100 ∧
      processTableRow (ColIndices.mk (some 0) (some 1) none none) []
        [some (("B").toList), some (("( junk)").toList)] = [] := by
  refine ⟨?_, ?_, ?_⟩
  · exact ((c2_descriptions docGood 0).1 itemALPHA (by decide)).1
  · exact ((c2_descriptions docGood 0).1 itemALPHA (by decide)).2
  · exact (c2_descriptions docGood 0).2.1 _ _ _ (by decide)

/-- C3 counterexample: the claim also asserts the emitted quantity is
never 0, but the table path parses the quantity cell with Python `int`
and uses the value unchecked, so a qualifying row whose quantity cell is
the string `0` is emitted with quantity 0 (`dd1750_core.py` lines
221-227). -/
theorem c3_counterexample :
    extract_items_from_pdf doc3 0 =
      [BomItem.mk 1 (("WIDGET").toList) (("123456789").toList) 0] := by
  decide

lemma findQtyGo_bounds (gs : List (ℚ × List Word)) (by' : ℚ) :
    ∀ (sy : List ℚ) (q : Nat), 1 ≤ q → q ≤ 100 →
      1 ≤ findQtyGo gs by' q sy ∧ findQtyGo gs by' q sy ≤ 100 := by
  intro sy
  induction sy with
  | nil => intro q h1 h2; exact ⟨h1, h2⟩
  | cons y rest ih =>
    intro q h1 h2
    unfold findQtyGo
    by_cases hy : ratAbs (qSub y by') ≤ mkRat 3 2
    · rw [if_pos hy]
      cases hf : (groupAt gs y).find? qtyWord with
      | none =>
        simp only
        by_cases hq : q ≠ 1
        · rw [if_pos hq]; exact ⟨h1, h2⟩
        · rw [if_neg hq]; exact ih q h1 h2
      | some w =>
        have hw : qtyWord w = true := List.find?_some hf
        simp only [qtyWord, Bool.and_eq_true, decide_eq_true_eq] at hw
        simp only
        by_cases hq : natFromDigits w.text ≠ 1
        · rw [if_pos hq]; exact ⟨hw.1.2, hw.2⟩
        · rw [if_neg hq]; exact ih _ hw.1.2 hw.2
    · rw [if_neg hy]
      by_cases hq : q ≠ 1
      · rw [if_pos hq]; exact ⟨h1, h2⟩
      · rw [if_neg hq]; exact ih q h1 h2

/-- C3 amended: a qualifying row whose quantity cell is missing,
unresolved, empty or unparsable gets the default quantity 1 (and the
typed model has no null); but a parsable cell is used as-is — including
`0` — so only the position-based path guarantees a quantity in
`[1, 100]`. -/
theorem c3_amended :
    (∀ (ci : ColIndices) (row : List Cell),
        qtyCellUnusable ci row = true → tableQty ci row = 1)
    ∧ (∀ (gs : List (ℚ × List Word)) (by' : ℚ) (sy : List ℚ),
        1 ≤ findQtyNear gs by' sy ∧ findQtyNear gs by' sy ≤ 100) := by
  constructor
  · intro ci row h
    unfold tableQty
    unfold qtyCellUnusable at h
    cases hq : ci.qty with
    | none => rfl
    | some qi =>
      rw [hq] at h
      dsimp only
      simp only [Bool.or_eq_true, Bool.not_eq_true', decide_eq_false_iff_not,
        Option.isNone_iff_eq_none] at h
      by_cases h1 : qi < row.length
      · rw [if_pos h1]
        rcases h with (h | h) | h
        · exact absurd h1 h
        · rw [h]
          simp
        · by_cases h2 : truthy (row.getD qi none) = true
          · rw [if_pos h2, h]
          · rw [if_neg h2]
      · rw [if_neg h1]
  · intro gs by' sy
    exact findQtyGo_bounds gs by' sy 1 (le_refl 1) (by omega)

/-- Witness for C3's amended statement at a concrete unparsable quantity
cell and a concrete quantity search. -/
theorem c3_witness :
    qtyCellUnusable (ColIndices.mk (some 0) (some 1) none (some 2))
        [some (("B").toList), some (("W").toList), some (("abc").toList)] = true
    ∧ tableQty (ColIndices.mk (some 0) (some 1) none (some 2))
        [some (("B").toList), some (("W").toList), some (("abc").toList)] = 1
    ∧ 1 ≤ findQtyNear [] 0 [] := by
  refine ⟨by decide, ?_, ?_⟩
  · exact c3_amended.1 _ _ (by decide)
  · exact (c3_amended.2 [] 0 []).1

/-- C4 counterexample: the claim says table-based extraction runs first
and the fallback runs only when it yields zero records; in the code the
position-based pass is primary and the table fallback runs whenever fewer
than five records have accumulated — here the primary pass emits two
records and the table contributes a third on the same page. -/
theorem c4_counterexample :
    (primaryOnPage words4 []).length = 2
    ∧ extract_items_from_pdf doc4 0 = [itemALPHA, itemBRAVO, itemCHARLIE] := by
  constructor
  · decide
  · decide

lemma primaryOnPage_nil (items : List BomItem) :
    primaryOnPage [] items = items := rfl

/-- C4 amended: on each page the position-based pass runs first; the
table-based extraction is the fallback and runs exactly when fewer than
five records have accumulated after the primary pass (on a page that has
words at all) — so both strategies can contribute records to the same
page. -/
theorem c4_amended (items : List BomItem) (words : List Word)
    (tables : List Table) :
    (5 ≤ (primaryOnPage words items).length →
      processPageD items (PageData.ok words tables) =
        Except.ok (primaryOnPage words items))
    ∧ ((primaryOnPage words items).length < 5 → words ≠ [] →
      processPageD items (PageData.ok words tables) =
        Except.ok (processTables tables (primaryOnPage words items))) := by
  have heq : processPageD items (PageData.ok words tables) =
      if words.isEmpty then Except.ok items
      else Except.ok (if (primaryOnPage words items).length < 5 then
        processTables tables (primaryOnPage words items)
      else primaryOnPage words items) := rfl
  constructor
  · intro h5
    rw [heq]
    by_cases hw : words.isEmpty
    · have hnil : words = [] := by
        cases words with
        | nil => rfl
        | cons a l => simp at hw
      rw [if_pos hw, hnil, primaryOnPage_nil]
    · rw [if_neg hw, if_neg (by omega)]
  · intro h5 hne
    have hw : ¬words.isEmpty = true := by
      cases words with
      | nil => exact absurd rfl hne
      | cons a l => simp
    rw [heq, if_neg hw, if_pos h5]

/-- Witness for C4's amended statement: with five records already
accumulated the table fallback is skipped; with none accumulated it runs
on the same page whose primary pass found two records. -/
theorem c4_witness :
    (5 ≤ (primaryOnPage words4 items5).length
      ∧ processPageD items5 page4 = Except.ok (primaryOnPage words4 items5))
    ∧ ((primaryOnPage words4 []).length < 5
      ∧ processPageD [] page4 =
          Except.ok (processTables [table4] (primaryOnPage words4 []))) := by
  refine ⟨⟨by decide, ?_⟩, ⟨by decide, ?_⟩⟩
  · exact (c4_amended items5 words4 [table4]).1 (by decide)
  · exact (c4_amended [] words4 [table4]).2 (by decide) (by decide)

lemma classify_lv (ci : ColIndices) (i : Nat) (c : Cell) :
    (classifyCell ci i c).lv = if isLvCell c then some i else ci.lv := by
  cases c with
  | none => simp [classifyCell, isLvCell, truthy]
  | some s =>
    unfold classifyCell isLvCell truthy cellTextU cellStr
    by_cases he : s.isEmpty
    · simp [he]
    · simp only [he, Bool.false_eq_true, if_false, Bool.not_false, Bool.true_and]
      by_cases h1 : kwLvIn (upperL (pyStrip s))
      · simp [h1]
      · simp only [h1, Bool.false_eq_true, if_false]
        by_cases h2 : kwDescIn (upperL (pyStrip s)) <;>
          by_cases h3 : kwMatIn (upperL (pyStrip s)) <;>
            by_cases h4 : kwQtyIn (upperL (pyStrip s)) <;>
              simp [h1, h2, h3, h4]

lemma classify_desc (ci : ColIndices) (i : Nat) (c : Cell) :
    (classifyCell ci i c).desc = if isDescCell c then some i else ci.desc := by
  cases c with
  | none => simp [classifyCell, isDescCell, truthy]
  | some s =>
    unfold classifyCell isDescCell truthy cellTextU cellStr
    by_cases he : s.isEmpty
    · simp [he]
    · simp only [he, Bool.false_eq_true, if_false, Bool.not_false, Bool.true_and]
      by_cases h1 : kwLvIn (upperL (pyStrip s)) <;>
        by_cases h2 : kwDescIn (upperL (pyStrip s)) <;>
          by_cases h3 : kwMatIn (upperL (pyStrip s)) <;>
            by_cases h4 : kwQtyIn (upperL (pyStrip s)) <;>
              simp [h1, h2, h3, h4]

lemma classify_material (ci : ColIndices) (i : Nat) (c : Cell) :
    (classifyCell ci i c).material =
      if isMatCell c then some i else ci.material := by
  cases c with
  | none => simp [classifyCell, isMatCell, truthy]
  | some s =>
    unfold classifyCell isMatCell truthy cellTextU cellStr
    by_cases he : s.isEmpty
    · simp [he]
    · simp only [he, Bool.false_eq_true, if_false, Bool.not_false, Bool.true_and]
      by_cases h1 : kwLvIn (upperL (pyStrip s)) <;>
        by_cases h2 : kwDescIn (upperL (pyStrip s)) <;>
          by_cases h3 : kwMatIn (upperL (pyStrip s)) <;>
            by_cases h4 : kwQtyIn (upperL (pyStrip s)) <;>
              simp [h1, h2, h3, h4]

lemma classify_qty (ci : ColIndices) (i : Nat) (c : Cell) :
    (classifyCell ci i c).qty = if isQtyCell c then some i else ci.qty := by
  cases c with
  | none => simp [classifyCell, isQtyCell, truthy]
  | some s =>
    unfold classifyCell isQtyCell truthy cellTextU cellStr
    by_cases he : s.isEmpty
    · simp [he]
    · simp only [he, Bool.false_eq_true, if_false, Bool.not_false, Bool.true_and]
      by_cases h1 : kwLvIn (upperL (pyStrip s)) <;>
        by_cases h2 : kwDescIn (upperL (pyStrip s)) <;>
          by_cases h3 : kwMatIn (upperL (pyStrip s)) <;>
            by_cases h4 : kwQtyIn (upperL (pyStrip s)) <;>
              simp [h1, h2, h3, h4]

lemma orElseO_none (o : Option Nat) : orElseO o none = o := by
  cases o <;> rfl

lemma orElseO_step (o : Option Nat) (p : Bool) (i : Nat) (d : Option Nat) :
    orElseO o (if p then some i else d) =
      orElseO (orElseO o (if p then some i else none)) d := by
  cases o with
  | some j => rfl
  | none => cases p <;> simp [orElseO]

lemma findColsFrom_fields (l : List Cell) : ∀ (i : Nat) (ci : ColIndices),
    (findColsFrom i ci l).lv = orElseO (lastIdxFrom isLvCell i l) ci.lv
    ∧ (findColsFrom i ci l).desc = orElseO (lastIdxFrom isDescCell i l) ci.desc
    ∧ (findColsFrom i ci l).material =
        orElseO (lastIdxFrom isMatCell i l) ci.material
    ∧ (findColsFrom i ci l).qty = orElseO (lastIdxFrom isQtyCell i l) ci.qty := by
  induction l with
  | nil => intro i ci; simp [findColsFrom, lastIdxFrom, orElseO]
  | cons c rest ih =>
    intro i ci
    have h := ih (i + 1) (classifyCell ci i c)
    refine ⟨?_, ?_, ?_, ?_⟩
    · rw [findColsFrom, h.1, classify_lv]
      show orElseO (lastIdxFrom isLvCell (i+1) rest)
          (if isLvCell c then some i else ci.lv) = _
      rw [orElseO_step]
      rfl
    · rw [findColsFrom, h.2.1, classify_desc]
      show orElseO (lastIdxFrom isDescCell (i+1) rest)
          (if isDescCell c then some i else ci.desc) = _
      rw [orElseO_step]
      rfl
    · rw [findColsFrom, h.2.2.1, classify_material]
      show orElseO (lastIdxFrom isMatCell (i+1) rest)
          (if isMatCell c then some i else ci.material) = _
      rw [orElseO_step]
      rfl
    · rw [findColsFrom, h.2.2.2, classify_qty]
      show orElseO (lastIdxFrom isQtyCell (i+1) rest)
          (if isQtyCell c then some i else ci.qty) = _
      rw [orElseO_step]
      rfl

/-- C9 amended: the header scan's `if`/`elif` chain assigns each role to
the LAST (rightmost) matching header cell, not the first — a later
matching cell overwrites an earlier resolution of the same role (each
cell still classifies into at most one role, in the chain's priority
order). -/
theorem c9_amended (header : List Cell) :
    (findCols header).lv = lastIdxWhere isLvCell header
    ∧ (findCols header).desc = lastIdxWhere isDescCell header
    ∧ (findCols header).material = lastIdxWhere isMatCell header
    ∧ (findCols header).qty = lastIdxWhere isQtyCell header := by
  have h := findColsFrom_fields header 0 (ColIndices.mk none none none none)
  unfold findCols lastIdxWhere
  refine ⟨?_, ?_, ?_, ?_⟩
  · rw [h.1]; exact orElseO_none _
  · rw [h.2.1]; exact orElseO_none _
  · rw [h.2.2.1]; exact orElseO_none _
  · rw [h.2.2.2]; exact orElseO_none _

/-- C9 counterexample: on a header whose first and third cells both match
the level-indicator keywords, the resolver returns the third cell's index
(last match wins), while the claim's first-match rule would return the
first. -/
theorem c9_counterexample :
    (findCols header9).lv = some 2
    ∧ firstIdxWhere isLvCell header9 = some 0 := by
  constructor
  · decide
  · decide

lemma renderPagesGo_none (items : List BomItem) :
    ∀ l : List Nat,
      renderPagesGo items none l =
        Except.ok (l.map (fun j => (pageSlice items j).map drawRow)) := by
  intro l
  induction l with
  | nil => rfl
  | cons p rest ih =>
    rw [renderPagesGo, if_neg (by simp), ih]
    rfl

lemma renderAll_none_eq (items : List BomItem) (total : Nat) :
    renderAll items none total =
      Except.ok ((List.range' 0 total).map
        (fun j => (pageSlice items j).map drawRow)) := by
  unfold renderAll
  exact renderPagesGo_none items _

lemma isEmpty_false_of_ne {l : List BomItem} (h : l ≠ []) :
    l.isEmpty = false := by
  cases l with
  | nil => exact absurd rfl h
  | cons a rest => rfl

lemma generate_none_eq (bom : Doc) (sp : Nat)
    (h : extract_items_from_pdf bom sp ≠ []) :
    generate_dd1750_from_pdf bom sp none =
      ((List.range' 0 (totalPagesFor (extract_items_from_pdf bom sp).length)).map
        (fun j => (pageSlice (extract_items_from_pdf bom sp) j).map drawRow),
       (extract_items_from_pdf bom sp).length) := by
  have heq : generate_dd1750_from_pdf bom sp none =
      (if (extract_items_from_pdf bom sp).isEmpty then ([[]], 0)
       else
         match renderAll (extract_items_from_pdf bom sp) none
             (totalPagesFor (extract_items_from_pdf bom sp).length) with
         | Except.ok pages => (pages, (extract_items_from_pdf bom sp).length)
         | Except.error _ => ([[]], 0)) := rfl
  rw [heq, if_neg (by rw [isEmpty_false_of_ne h]; simp)]
  rw [renderAll_none_eq]

lemma pageSlice_length (items : List BomItem) (p : Nat) :
    (pageSlice items p).length =
      min ROWS_PER_PAGE (items.length - p * ROWS_PER_PAGE) := by
  unfold pageSlice
  rw [List.length_take, List.length_drop]

lemma getD_map_range' {α : Type} (f : Nat → α) (d : α) (s n i : Nat)
    (h : i < n) : ((List.range' s n).map f).getD i d = f (s + i) := by
  rw [List.getD_eq_getElem?_getD, List.getElem?_map f, List.getElem?_range' s 1 h]
  simp

/-- C5: for `N > 0` extracted records the generator emits exactly
`ceil(N/18)` output pages, every page but possibly the last carries
exactly 18 records, the last carries `N mod 18` (or 18 when `N` is a
multiple of 18), and 40 records give pages of 18, 18 and 4 records. -/
theorem c5_pagination (bom : Doc) (sp : Nat)
    (h : 0 < (extract_items_from_pdf bom sp).length) :
    ((generate_dd1750_from_pdf bom sp none).1).length =
        ((extract_items_from_pdf bom sp).length + 17) / 18
    ∧ (∀ p, p + 1 < ((generate_dd1750_from_pdf bom sp none).1).length →
        (((generate_dd1750_from_pdf bom sp none).1).getD p []).length = 18)
    ∧ (((generate_dd1750_from_pdf bom sp none).1).getD
          (((generate_dd1750_from_pdf bom sp none).1).length - 1) []).length =
        (if (extract_items_from_pdf bom sp).length % 18 = 0 then 18
         else (extract_items_from_pdf bom sp).length % 18)
    ∧ ((extract_items_from_pdf bom sp).length = 40 →
        ((generate_dd1750_from_pdf bom sp none).1).map List.length =
          [18, 18, 4]) := by
  have hne : extract_items_from_pdf bom sp ≠ [] := by
    intro hx
    rw [hx] at h
    simp at h
  have hg := generate_none_eq bom sp hne
  rw [hg]
  have hN : totalPagesFor (extract_items_from_pdf bom sp).length =
      ((extract_items_from_pdf bom sp).length + 17) / 18 := rfl
  refine ⟨?_, ?_, ?_, ?_⟩
  · simp [List.length_range', hN]
  · intro p hp
    simp only [List.length_map, List.length_range'] at hp
    rw [getD_map_range' _ _ 0 _ p (by omega)]
    rw [List.length_map, pageSlice_length]
    have h18 : ROWS_PER_PAGE = 18 := rfl
    rw [h18]
    have : 18 ≤ (extract_items_from_pdf bom sp).length - p * 18 := by
      rw [hN] at hp
      omega
    omega
  · simp only [List.length_map, List.length_range']
    have htot : 0 < totalPagesFor (extract_items_from_pdf bom sp).length := by
      rw [hN]; omega
    rw [getD_map_range' _ _ 0 _ _ (by omega)]
    rw [List.length_map, pageSlice_length]
    have h18 : ROWS_PER_PAGE = 18 := rfl
    rw [h18, hN]
    rw [hN] at htot
    by_cases hm : (extract_items_from_pdf bom sp).length % 18 = 0
    · rw [if_pos hm]
      have : (extract_items_from_pdf bom sp).length -
          (0 + (((extract_items_from_pdf bom sp).length + 17) / 18 - 1)) * 18 = 18 := by
        omega
      omega
    · rw [if_neg hm]
      omega
  · intro h40
    simp only [h40]
    have h3 : totalPagesFor 40 = 3 := rfl
    rw [h3]
    have hr : List.range' 0 3 = [0, 1, 2] := rfl
    rw [hr]
    simp only [List.map_cons, List.map_nil, List.length_map, pageSlice_length, h40]
    rfl

/-- Witness for C5 at a document with forty qualifying table rows. -/
theorem c5_witness :
    0 < (extract_items_from_pdf doc40 0).length
    ∧ ((generate_dd1750_from_pdf doc40 0 none).1).map List.length = [18, 18, 4] := by
  refine ⟨by decide, ?_⟩
  exact (c5_pagination doc40 0 (by decide)).2.2.2 (by decide)

lemma goPages_broken : ∀ (pages : List PageData) (items : List BomItem),
    PageData.broken ∈ pages → goPages pages items = Except.error () := by
  intro pages
  induction pages with
  | nil => intro items hmem; simp at hmem
  | cons p rest ih =>
    intro items hmem
    cases hp : processPageD items p with
    | error e =>
      simp only [goPages, hp]
    | ok its =>
      have hpb : p ≠ PageData.broken := by
        intro hx
        rw [hx] at hp
        simp [processPageD] at hp
      have hrest : PageData.broken ∈ rest := by
        rcases List.mem_cons.mp hmem with hx | hx
        · exact absurd hx.symm hpb
        · exact hx
      simp only [goPages, hp]
      exact ih its hrest

/-- C6 amended: the extractor has no row-granularity handler — its only
handler wraps the whole extraction and returns the empty list, so an
anomaly on any page (row anomalies included) discards the records already
emitted from earlier pages; an unopenable source likewise yields the
empty list rather than an exception. -/
theorem c6_amended (doc : Doc) (sp : Nat) :
    (doc.canOpen = false → extract_items_from_pdf doc sp = [])
    ∧ (PageData.broken ∈ doc.pages.drop sp →
        extract_items_from_pdf doc sp = []) := by
  constructor
  · intro h
    unfold extract_items_from_pdf
    rw [h]
    simp
  · intro hmem
    unfold extract_items_from_pdf
    rw [goPages_broken _ [] hmem]
    simp only
    split <;> rfl

/-- C6 counterexample: a good page followed by a page whose reading
raises — alone, the good page yields one record, but with the broken page
after it the whole extraction returns the empty list, discarding the
record already emitted, instead of skipping only the anomalous part. -/
theorem c6_counterexample :
    extract_items_from_pdf docGood 0 = [itemALPHA]
    ∧ extract_items_from_pdf docGB 0 = [] := by
  constructor
  · decide
  · decide

/-- Witness for C6's amended statement. -/
theorem c6_witness :
    extract_items_from_pdf (Doc.mk false [pageGood]) 0 = []
    ∧ extract_items_from_pdf (Doc.mk true [PageData.broken]) 0 = [] := by
  constructor
  · exact (c6_amended (Doc.mk false [pageGood]) 0).1 rfl
  · exact (c6_amended (Doc.mk true [PageData.broken]) 0).2 (by decide)

lemma renderPagesGo_fail (items : List BomItem) (i : Nat) :
    ∀ l : List Nat, i ∈ l →
      renderPagesGo items (some i) l = Except.error () := by
  intro l
  induction l with
  | nil => intro h; simp at h
  | cons p rest ih =>
    intro hmem
    by_cases hip : i = p
    · rw [renderPagesGo, if_pos (by rw [hip])]
    · have hrest : i ∈ rest := by
        rcases List.mem_cons.mp hmem with hx | hx
        · exact absurd hx hip
        · exact hx
      rw [renderPagesGo, if_neg (by simp [hip]), ih hrest]

lemma renderAll_fail (items : List BomItem) (i total : Nat) (h : i < total) :
    renderAll items (some i) total = Except.error () := by
  unfold renderAll
  exact renderPagesGo_fail items i _ (by simp [List.mem_range']; omega)

/-- C7 amended: a failure while rendering any page makes the generator
discard every rendered page, write the bare template first page as the
output document and return an item count of 0 — it catches the error
rather than failing the request, and never returns a partial document
holding a proper subset of the rendered pages. -/
theorem c7_amended (bom : Doc) (sp i : Nat)
    (h : extract_items_from_pdf bom sp ≠ [])
    (hi : i < totalPagesFor (extract_items_from_pdf bom sp).length) :
    generate_dd1750_from_pdf bom sp (some i) = ([[]], 0) := by
  have heq : generate_dd1750_from_pdf bom sp (some i) =
      (if (extract_items_from_pdf bom sp).isEmpty then ([[]], 0)
       else
         match renderAll (extract_items_from_pdf bom sp) (some i)
             (totalPagesFor (extract_items_from_pdf bom sp).length) with
         | Except.ok pages => (pages, (extract_items_from_pdf bom sp).length)
         | Except.error _ => ([[]], 0)) := rfl
  rw [heq, if_neg (by rw [isEmpty_false_of_ne h]; simp)]
  rw [renderAll_fail _ _ _ hi]

/-- C7 counterexample: with a rendering failure injected at page 0 the
generator still completes normally and still produces an output document
(the bare template page, count 0) — the failure is caught, not fatal, so
the claim's "fatal for the whole request" reading fails, while no
partially rendered page ever appears in the output. -/
theorem c7_counterexample :
    generate_dd1750_from_pdf docGood 0 (some 0) = ([[]], 0)
    ∧ (generate_dd1750_from_pdf docGood 0 (some 0)).1 ≠ [] := by
  constructor
  · decide
  · decide

/-- Witness for C7's amended statement at a concrete document. -/
theorem c7_witness :
    extract_items_from_pdf doc4 0 ≠ []
    ∧ 0 < totalPagesFor (extract_items_from_pdf doc4 0).length
    ∧ generate_dd1750_from_pdf doc4 0 (some 0) = ([[]], 0) := by
  refine ⟨by decide, by decide, ?_⟩
  exact c7_amended doc4 0 0 (by decide) (by decide)

/-- C8: the (spec-modelled) admin-capable generator accepts an
admin-fields map and reformats its date value into the military format —
`2026-01-04` becomes `04JAN2026` — while an unrecognized date string
passes through unchanged. -/
theorem c8_admin_date :
    (∀ (bom : Doc) (sp : Nat) (rf : Option Nat) (admin : AdminFields),
        (generateWithAdmin bom sp rf admin).2 = formatMilitaryDate admin.date)
    ∧ formatMilitaryDate (("2026-01-04").toList) = ("04JAN2026").toList
    ∧ (∀ s : Str, parseDateAny s = none → formatMilitaryDate s = s) := by
  refine ⟨fun _ _ _ _ => rfl, by decide, ?_⟩
  intro s h
  unfold formatMilitaryDate
  rw [h]

/-- Witness for C8 at a concrete request and a concrete unrecognized
date string. -/
theorem c8_witness :
    (generateWithAdmin doc4 0 none
        (AdminFields.mk [] [] [] [] [] (("2026-01-04").toList))).2 =
      ("04JAN2026").toList
    ∧ formatMilitaryDate (("hello").toList) = ("hello").toList := by
  constructor
  · exact (c8_admin_date.1 doc4 0 none
      (AdminFields.mk [] [] [] [] [] (("2026-01-04").toList))).trans
      c8_admin_date.2.1
  · exact c8_admin_date.2.2 (("hello").toList) (by decide)

lemma drawRow_desc_le (it : BomItem) : (drawRow it).descDrawn.length ≤ 50 := by
  unfold drawRow
  by_cases h : 50 < it.description.length
  · simp only [h, if_true, List.length_append, List.length_take]
    have : min 47 it.description.length = 47 := by omega
    simp [this]
  · simp only [h, if_false]
    omega

lemma renderPagesGo_rows (items : List BomItem) (rf : Option Nat) :
    ∀ (l : List Nat) (pages : List OutPage),
      renderPagesGo items rf l = Except.ok pages →
      ∀ pg ∈ pages, ∀ r ∈ pg, ∃ it, r = drawRow it := by
  intro l
  induction l with
  | nil =>
    intro pages hr pg hpg r hr'
    cases hr
    simp at hpg
  | cons p rest ih =>
    intro pages hr pg hpg r hr'
    rw [renderPagesGo] at hr
    by_cases hrf : rf = some p
    · rw [if_pos hrf] at hr
      cases hr
    · rw [if_neg hrf] at hr
      cases hrec : renderPagesGo items rf rest with
      | error e => rw [hrec] at hr; cases hr
      | ok r0 =>
        rw [hrec] at hr
        cases hr
        rcases List.mem_cons.mp hpg with hx | hx
        · subst hx
          rcases List.mem_map.mp hr' with ⟨it, _, hit⟩
          exact ⟨it, hit.symm⟩
        · exact ih r0 hrec pg hx r hr'

lemma generate_rows (bom : Doc) (sp : Nat) (rf : Option Nat) :
    ∀ pg ∈ (generate_dd1750_from_pdf bom sp rf).1, ∀ r ∈ pg,
      ∃ it, r = drawRow it := by
  intro pg hpg r hr
  have heq : generate_dd1750_from_pdf bom sp rf =
      (if (extract_items_from_pdf bom sp).isEmpty then ([[]], 0)
       else
         match renderAll (extract_items_from_pdf bom sp) rf
             (totalPagesFor (extract_items_from_pdf bom sp).length) with
         | Except.ok pages => (pages, (extract_items_from_pdf bom sp).length)
         | Except.error _ => ([[]], 0)) := rfl
  rw [heq] at hpg
  by_cases he : (extract_items_from_pdf bom sp).isEmpty
  · rw [if_pos he] at hpg
    simp only [List.mem_singleton] at hpg
    subst hpg
    simp at hr
  · rw [if_neg he] at hpg
    cases hrec : renderAll (extract_items_from_pdf bom sp) rf
        (totalPagesFor (extract_items_from_pdf bom sp).length) with
    | error e =>
      rw [hrec] at hpg
      simp only [List.mem_singleton] at hpg
      subst hpg
      simp at hr
    | ok pages =>
      rw [hrec] at hpg
      exact renderPagesGo_rows _ rf _ pages hrec pg hpg r hr

/-- C10: every description string handed to the canvas is at most 50
characters — a stored description longer than 50 characters is drawn as
its first 47 characters followed by three dots, a shorter one is drawn
verbatim — even though the stored description may hold up to 100
characters. -/
theorem c10_drawn_descriptions (bom : Doc) (sp : Nat) (rf : Option Nat) :
    (∀ pg ∈ (generate_dd1750_from_pdf bom sp rf).1, ∀ r ∈ pg,
        r.descDrawn.length ≤ 50)
    ∧ (∀ it : BomItem, 50 < it.description.length →
        (drawRow it).descDrawn =
          it.description.take 47 ++ ('.') :: ('.') :: ('.') :: [])
    ∧ (∀ it : BomItem, it.description.length ≤ 50 →
        (drawRow it).descDrawn = it.description) := by
  refine ⟨?_, ?_, ?_⟩
  · intro pg hpg r hr
    rcases generate_rows bom sp rf pg hpg r hr with ⟨it, hit⟩
    rw [hit]
    exact drawRow_desc_le it
  · intro it h
    unfold drawRow
    simp [h]
  · intro it h
    unfold drawRow
    have : ¬ 50 < it.description.length := by omega
    simp [this]

/-- Witness for C10 at a concrete run and concrete long and short
records. -/
theorem c10_witness :
    (drawRow itemALPHA).descDrawn.length ≤ 50
    ∧ (drawRow itemLong).descDrawn =
        itemLong.description.take 47 ++ ('.') :: ('.') :: ('.') :: []
    ∧ (drawRow itemALPHA).descDrawn = itemALPHA.description := by
  refine ⟨?_, ?_, ?_⟩
  · exact (c10_drawn_descriptions doc4 0 none).1
      [drawRow itemALPHA, drawRow itemBRAVO, drawRow itemCHARLIE] (by decide)
      (drawRow itemALPHA) (by decide)
  · exact (c10_drawn_descriptions doc4 0 none).2.1 itemLong (by decide)
  · exact (c10_drawn_descriptions doc4 0 none).2.2 itemALPHA (by decide)

end DD1750
